import Mathlib

/-!
Verification of the authentication and session-integrity subsystem of
the portfolio resume-mail backend (src/server.js).

The JavaScript code is shallowly embedded: pure functions become Lean
functions, JavaScript strings become Lean `String`, byte buffers become
`List Nat`, fallible operations (ones that can throw) return `Except`.
External library primitives that are not part of the repository
(HMAC-SHA256, scrypt, JSON.parse, base64url decoding) are taken as
explicit function parameters of the embedded definitions, so every
theorem states exactly which library behaviour it relies on; fully
concrete instantiations are supplied for witnesses and counterexamples.
-/

namespace PortfolioServer

/-- Constant `SESSION_TTL_MS = 8 * 60 * 60 * 1000` from server.js. -/
def SESSION_TTL_MS : Int := 8 * 60 * 60 * 1000

/-- Byte view of a string, one entry per character code point.  The
payload strings and signatures handled by server.js are ASCII, where
this agrees with the UTF-8 bytes of `Buffer.from(s)`; for general
strings it is still an injective encoding, so equality of byte views
coincides with equality of strings exactly as it does for UTF-8. -/
def strBytes (s : String) : List Nat :=
  s.data.map Char.toNat

/-- JavaScript `String.prototype.split` with a one-character separator,
on the character list of the string: splits at every occurrence of the
separator; the empty string splits to one empty piece. -/
def jsSplit (sep : Char) : List Char → List (List Char)
  | [] => [[]]
  | c :: rest =>
    if c = sep then [] :: jsSplit sep rest
    else
      match jsSplit sep rest with
      | [] => [[c]]
      | piece :: pieces => (c :: piece) :: pieces

/-- The base64url alphabet used by `Buffer.prototype.toString "base64url"`. -/
def b64Table : List Char :=
  "ABCDEFGHIJKLMNOPQRSTUVWXYZabcdefghijklmnopqrstuvwxyz0123456789-_".data

/-- Character of the base64url alphabet at a 6-bit index. -/
def b64Char (n : Nat) : Char :=
  b64Table.getD n 'A'

/-- Unpadded base64url encoding of a byte list, as produced by
`Buffer.from(s).toString "base64url"` in Node. -/
def base64urlEncode : List Nat → List Char
  | [] => []
  | [b1] =>
    [b64Char (b1 / 4), b64Char (b1 % 4 * 16)]
  | [b1, b2] =>
    [b64Char (b1 / 4), b64Char (b1 % 4 * 16 + b2 / 16), b64Char (b2 % 16 * 4)]
  | b1 :: b2 :: b3 :: rest =>
    b64Char (b1 / 4) :: b64Char (b1 % 4 * 16 + b2 / 16) ::
      b64Char (b2 % 16 * 4 + b3 / 64) :: b64Char (b3 % 64) ::
      base64urlEncode rest

/-- Minimal model of the JavaScript values JSON.parse can return. -/
inductive JsVal where
  | jnull : JsVal
  | jbool : Bool → JsVal
  | jnum : Int → JsVal
  | jstr : String → JsVal
  | jarr : List JsVal → JsVal
  | jobj : List (String × JsVal) → JsVal

/-- JavaScript truthiness of a parsed JSON value: null, false, 0 and
the empty string are falsy, every other JSON value is truthy. -/
def jsTruthy : JsVal → Bool
  | JsVal.jnull => false
  | JsVal.jbool b => b
  | JsVal.jnum n => n != 0
  | JsVal.jstr s => s != ""
  | JsVal.jarr _ => true
  | JsVal.jobj _ => true

/-- JavaScript property access `v[k]` on a parsed JSON value: a field
lookup on objects (JSON.parse keeps one binding per key), undefined
(`none`) on everything else. -/
def getField (v : JsVal) (k : String) : Option JsVal :=
  match v with
  | JsVal.jobj fields => fields.lookup k
  | _ => none

/-- JavaScript strict equality `v === s` between an accessed property
value (undefined when absent) and a string literal: true exactly when
the value is that string. -/
def jsStrictEqStr (v : Option JsVal) (s : String) : Bool :=
  match v with
  | some (JsVal.jstr t) => t == s
  | _ => false

/-- JSON serialization of the session payload object
`\x7b exp: e, typ: "admin" \x7d` built by createSessionToken, exactly as
`JSON.stringify` prints it (keys in insertion order, no spaces). -/
def stringifyPayload (e : Int) : String :=
  "\x7b\"exp\":" ++ toString e ++ ",\"typ\":\"admin\"\x7d"

/-- The parsed form of `stringifyPayload e`. -/
def payloadVal (e : Int) : JsVal :=
  JsVal.jobj [("exp", JsVal.jnum e), ("typ", JsVal.jstr "admin")]

/-- Embedding of `signTokenPart` from server.js: HMAC-SHA256 of the
given value under `SESSION_SECRET`, base64url encoded.  The HMAC
primitive itself is external to the repository and is passed in as the
function `hmac` (key, then message, to base64url signature string). -/
def signTokenPart (hmac : String → String → String) (secret value : String) : String :=
  hmac secret value

/-- The base64url-encoded payload part of a session token whose
payload carries the given expiry. -/
def sessionPayloadPart (expiry : Int) : String :=
  String.mk (base64urlEncode (strBytes (stringifyPayload expiry)))

/-- Embedding of `createSessionToken` from server.js: serialize the
payload with expiry `now + SESSION_TTL_MS` and kind "admin", base64url
encode it, sign the encoded part, and join the two with a dot. -/
def createSessionToken (hmac : String → String → String) (secret : String) (now : Int) : String :=
  sessionPayloadPart (now + SESSION_TTL_MS) ++ "." ++
    signTokenPart hmac secret (sessionPayloadPart (now + SESSION_TTL_MS))

/-- Model of `crypto.timingSafeEqual` on byte buffers: throws when the
lengths differ, otherwise decides byte equality. -/
def timingSafeEqual (a b : List Nat) : Except String Bool :=
  if a.length ≠ b.length then Except.error "ERR_CRYPTO_TIMING_SAFE_EQUAL_LENGTH"
  else Except.ok (decide (a = b))

/-- Embedding of `verifySessionToken` from server.js as a fallible
computation: an `Except.error` means an unhandled JavaScript exception
escapes the function.  Library primitives are parameters: `hmac` as in
`signTokenPart`; `b64decode` models
`Buffer.from(p, "base64url").toString "utf8"`, which never throws in
Node (invalid characters are skipped); `jsonParse` models `JSON.parse`,
with `none` for a parse error (thrown and caught by the try block in
the source, which spans only the decode-and-parse region). -/
def verifySessionTokenE (hmac : String → String → String)
    (b64decode : String → String) (jsonParse : String → Option JsVal)
    (secret : String) (now : Int) (token : String) : Except String Bool :=
  if token = "" then Except.ok false
  else if '.' ∉ token.data then Except.ok false
  else
    let pieces := jsSplit '.' token.data
    let payloadPart : String := String.mk (pieces.getD 0 [])
    let providedSig : String := String.mk (pieces.getD 1 [])
    if payloadPart = "" then Except.ok false
    else if providedSig = "" then Except.ok false
    else
      let expectedSig := signTokenPart hmac secret payloadPart
      if (strBytes providedSig).length ≠ (strBytes expectedSig).length then Except.ok false
      else
        match timingSafeEqual (strBytes providedSig) (strBytes expectedSig) with
        | Except.error e => Except.error e
        | Except.ok eq =>
          if ¬ eq then Except.ok false
          else
            match jsonParse (b64decode payloadPart) with
            | none => Except.ok false
            | some payload =>
              if ¬ jsTruthy payload then Except.ok false
              else if ¬ jsStrictEqStr (getField payload "typ") "admin" then Except.ok false
              else
                match getField payload "exp" with
                | some (JsVal.jnum e) => Except.ok (decide (¬ now > e))
                | _ => Except.ok false

/-- Boolean result of `verifySessionToken`; an escaped exception is
collapsed to rejection here, and the totality theorem below shows no
exception ever escapes. -/
def verifySessionToken (hmac : String → String → String)
    (b64decode : String → String) (jsonParse : String → Option JsVal)
    (secret : String) (now : Int) (token : String) : Bool :=
  match verifySessionTokenE hmac b64decode jsonParse secret now token with
  | Except.ok b => b
  | Except.error _ => false

/-- JavaScript `String.prototype.startsWith` on the character lists. -/
def strStartsWith (s p : String) : Bool :=
  p.data.isPrefixOf s.data

/-- JavaScript `String.prototype.trim`: strip leading and trailing
whitespace (modelled with the ASCII whitespace characters). -/
def jsTrim (s : String) : String :=
  String.mk (((s.data.dropWhile Char.isWhitespace).reverse.dropWhile Char.isWhitespace).reverse)

/-- Embedding of `verifyPassword` from server.js.  External primitives
as parameters: `scryptSync` models `crypto.scryptSync` (password, salt
bytes, requested key length, to derived key bytes) and `b64stdDecode`
models the lenient standard-base64 `Buffer.from(x, "base64")`.  An
`Except.error` is an unhandled exception escaping the function. -/
def verifyPasswordE (scryptSync : String → List Nat → Nat → List Nat)
    (b64stdDecode : String → List Nat)
    (adminPasswordHash adminPassword : String) (password : String) : Except String Bool :=
  let candidate := password
  if candidate = "" then Except.ok false
  else if strStartsWith adminPasswordHash "scrypt$" then
    let parts := jsSplit '$' adminPasswordHash.data
    if parts.length ≠ 3 then Except.ok false
    else
      let salt := b64stdDecode (String.mk (parts.getD 1 []))
      let expected := b64stdDecode (String.mk (parts.getD 2 []))
      let derived := scryptSync candidate salt expected.length
      timingSafeEqual expected derived
  else if adminPassword ≠ "" then
    let expected := strBytes adminPassword
    let received := strBytes candidate
    if expected.length ≠ received.length then Except.ok false
    else timingSafeEqual expected received
  else Except.ok false

/-- Boolean result of `verifyPassword`, collapsing an escaped exception
to rejection (`crypto.scryptSync` returns exactly the requested key
length, so the scrypt-path comparison never throws in Node). -/
def verifyPassword (scryptSync : String → List Nat → Nat → List Nat)
    (b64stdDecode : String → List Nat)
    (adminPasswordHash adminPassword : String) (password : String) : Bool :=
  match verifyPasswordE scryptSync b64stdDecode adminPasswordHash adminPassword password with
  | Except.ok b => b
  | Except.error _ => false

/-- Hexadecimal digit test used by the decodeURIComponent model. -/
def isHexDigitChar (c : Char) : Bool :=
  c.isDigit || ('a' ≤ c && c ≤ 'f') || ('A' ≤ c && c ≤ 'F')

/-- Numeric value of a hexadecimal digit character. -/
def hexDigitVal (c : Char) : Nat :=
  if c.isDigit then c.toNat - 48
  else if 'a' ≤ c && c ≤ 'f' then c.toNat - 87
  else c.toNat - 55

/-- Model of the JavaScript global `decodeURIComponent`: a percent sign
must be followed by two hexadecimal digits, otherwise a URIError is
thrown (`Except.error`).  Decoded bytes are kept as characters with the
same code; real decodeURIComponent additionally rejects percent-escaped
byte sequences that are not valid UTF-8, so the errors modelled here are
a subset of the real ones (sufficient for the paths relied on below). -/
def decodeURIComponentE : List Char → Except Unit (List Char)
  | [] => Except.ok []
  | '%' :: h1 :: h2 :: rest =>
    if isHexDigitChar h1 && isHexDigitChar h2 then
      match decodeURIComponentE rest with
      | Except.ok out => Except.ok (Char.ofNat (hexDigitVal h1 * 16 + hexDigitVal h2) :: out)
      | Except.error e => Except.error e
    else Except.error ()
  | '%' :: _ => Except.error ()
  | c :: rest =>
    match decodeURIComponentE rest with
    | Except.ok out => Except.ok (c :: out)
    | Except.error e => Except.error e

/-- JavaScript object assignment `out[key] = val` on a string-keyed map
represented as an association list: overwrite in place, else append. -/
def jsObjSet (out : List (String × String)) (k v : String) : List (String × String) :=
  if out.any (fun p => p.1 = k) then out.map (fun p => if p.1 = k then (k, v) else p)
  else out ++ [(k, v)]

/-- Loop body of `parseCookies`: one cookie-header part per step.  A
part without an equals sign, or with an empty trimmed key, is skipped;
otherwise the trimmed value is percent-decoded (which can throw) and
stored. -/
def parseCookiesAux : List (List Char) → List (String × String) → Except Unit (List (String × String))
  | [], out => Except.ok out
  | part :: rest, out =>
    if '=' ∉ part then parseCookiesAux rest out
    else
      let key := jsTrim (String.mk (part.takeWhile (fun c => c ≠ '=')))
      let valRaw := jsTrim (String.mk ((part.dropWhile (fun c => c ≠ '=')).drop 1))
      if key = "" then parseCookiesAux rest out
      else
        match decodeURIComponentE valRaw.data with
        | Except.error e => Except.error e
        | Except.ok v => parseCookiesAux rest (jsObjSet out key (String.mk v))

/-- Embedding of `parseCookies` from server.js, applied to the raw
Cookie header string (the empty string when the header is absent).  An
`Except.error` is an uncaught URIError from `decodeURIComponent`. -/
def parseCookiesE (rawCookieHeader : String) : Except Unit (List (String × String)) :=
  parseCookiesAux (jsSplit ';' rawCookieHeader.data) []

/-- Cookie name constant `SESSION_COOKIE_NAME` from server.js. -/
def SESSION_COOKIE_NAME : String := "admin_session"

/-- The three ways the `requireAdminAuth` middleware can conclude. -/
inductive AuthOutcome where
  | serverError500 : AuthOutcome
  | unauthorized401 : AuthOutcome
  | nextCalled : AuthOutcome
deriving DecidableEq

/-- Embedding of `requireAdminAuth` from server.js: reply 500 when no
signing secret is configured, otherwise parse the cookies, look up the
session cookie (the missing-cookie case behaves like the empty string
in `verifySessionToken`), and either call the next handler or reply
401.  An `Except.error` is an exception escaping the middleware. -/
def requireAdminAuthE (hmac : String → String → String)
    (b64decode : String → String) (jsonParse : String → Option JsVal)
    (secret : String) (now : Int) (cookieHeader : String) : Except Unit AuthOutcome :=
  if secret = "" then Except.ok AuthOutcome.serverError500
  else
    match parseCookiesE cookieHeader with
    | Except.error e => Except.error e
    | Except.ok cookies =>
      let token := (cookies.lookup SESSION_COOKIE_NAME).getD ""
      if verifySessionToken hmac b64decode jsonParse secret now token then
        Except.ok AuthOutcome.nextCalled
      else Except.ok AuthOutcome.unauthorized401

/-- Configuration bundle read from the environment at the top of
server.js (every field already trimmed, defaults applied). -/
structure ServerConfig where
  smtpHost : String
  smtpUser : String
  smtpPass : String
  emailProvider : String
  brevoApiKey : String
  resumeFilePath : String
  sessionSecret : String
  adminPasswordHash : String
  adminPassword : String

/-- Embedding of `validateServerConfig` from server.js: throws
(`Except.error`) on the first missing piece of required configuration,
otherwise returns the resolved resume path.  Filesystem primitives
`path.resolve` and `fs.existsSync` are parameters. -/
def validateServerConfig (pathResolve : String → String) (existsSync : String → Bool)
    (cfg : ServerConfig) : Except String String :=
  if cfg.sessionSecret = "" then
    Except.error "Missing SESSION_SECRET."
  else if cfg.adminPasswordHash = "" ∧ cfg.adminPassword = "" then
    Except.error "Missing admin password config. Set ADMIN_PASSWORD_HASH (recommended) or ADMIN_PASSWORD."
  else if cfg.emailProvider = "smtp" ∧ (cfg.smtpHost = "" ∨ cfg.smtpUser = "" ∨ cfg.smtpPass = "") then
    Except.error "Missing SMTP configuration. Check SMTP_HOST, SMTP_USER, SMTP_PASS."
  else if cfg.emailProvider = "brevo" ∧ cfg.brevoApiKey = "" then
    Except.error "Missing BREVO_API_KEY for brevo provider."
  else if cfg.resumeFilePath = "" then
    Except.error "Missing RESUME_FILE_PATH."
  else
    let absPath := pathResolve cfg.resumeFilePath
    if ¬ existsSync absPath then Except.error ("Resume file not found: " ++ absPath)
    else Except.ok absPath

/-- Modelled from the spec: the static API key gate (`check`) of spec
section 4.3 and the `x-api-key` protection described in
src/BACKEND_SETUP.md.  The gate itself is not implemented in
src/server.js (only the setup document declares it), so it is modelled
from the words of the spec: fail closed when no key is configured,
otherwise require a non-empty provided key exactly equal to the
configured key. -/
def apiKeyCheck (configuredKey providedKey : String) : Bool :=
  if configuredKey = "" then false
  else if providedKey = "" then false
  else providedKey == configuredKey

/-! Concrete instantiations of the external primitives, used to
evaluate the embedded functions on closed inputs (witnesses and
counterexamples).  They satisfy, at the points where they are used, the
interface properties the theorems assume of the real Node primitives. -/

/-- Index of a character in the base64url alphabet. -/
def b64CharVal (c : Char) : Nat :=
  b64Table.indexOf c

/-- Sextet groups back to bytes, inverse of the grouping in
`base64urlEncode`. -/
def b64DecodeSextets : List Nat → List Nat
  | s1 :: s2 :: s3 :: s4 :: rest =>
    (s1 * 4 + s2 / 16) :: (s2 % 16 * 16 + s3 / 4) :: (s3 % 4 * 64 + s4) :: b64DecodeSextets rest
  | [s1, s2] => [s1 * 4 + s2 / 16]
  | [s1, s2, s3] => [s1 * 4 + s2 / 16, s2 % 16 * 16 + s3 / 4]
  | _ => []

/-- Concrete base64url decoder (for inputs over the base64url
alphabet), a left inverse of `base64urlEncode` on byte lists. -/
def base64urlDecodeStr (s : String) : String :=
  String.mk ((b64DecodeSextets (s.data.map b64CharVal)).map Char.ofNat)

/-- Digit-string to number, `none` when empty or not all digits. -/
def digitsToNat (cs : List Char) : Option Nat :=
  if cs = [] then none
  else if cs.all Char.isDigit then
    some (cs.foldl (fun a c => a * 10 + (c.toNat - 48)) 0)
  else none

/-- Integer literal parser: optional minus sign, then digits. -/
def parseJsInt : List Char → Option Int
  | '-' :: rest => (digitsToNat rest).map (fun n => -(n : Int))
  | cs => (digitsToNat cs).map (fun n => (n : Int))

/-- Concrete JSON parser covering exactly the session payload shape
produced by `stringifyPayload` (object with integer field exp then
string field typ equal to "admin"); everything else parses to `none`.
Stands in for `JSON.parse` where only such payloads are at stake. -/
def cJsonParse (s : String) : Option JsVal :=
  let pre := "\x7b\"exp\":".data
  let post := ",\"typ\":\"admin\"\x7d".data
  let cs := s.data
  if cs.take pre.length = pre ∧ (cs.drop pre.length).drop ((cs.drop pre.length).length - post.length) = post then
    (parseJsInt ((cs.drop pre.length).take ((cs.drop pre.length).length - post.length))).map payloadVal
  else none

/-- Concrete stand-in for HMAC-SHA256-base64url: a deterministic keyed
function into the base64url alphabet (so its output is never empty and
never contains a dot, as with the real 43-character signatures). -/
def cHmac (key message : String) : String :=
  String.mk (base64urlEncode (strBytes (key ++ "|" ++ message)))

/-! Helper lemmas about the embedded primitives. -/

theorem string_mk_data (s : String) : String.mk s.data = s := by
  cases s
  rfl

theorem string_eq_empty_iff (s : String) : s = "" ↔ s.data = [] := by
  cases s
  simp [String.ext_iff]

theorem strBytes_injective : Function.Injective strBytes := by
  intro a b h
  apply String.ext
  revert h
  apply List.map_injective_iff.mpr
  intro c d hcd
  have := congrArg Char.ofNat hcd
  simpa [Char.ofNat_toNat] using this

theorem jsSplit_ne_nil (sep : Char) : ∀ l : List Char, jsSplit sep l ≠ []
  | [] => by simp [jsSplit]
  | c :: rest => by
    by_cases hc : c = sep
    · simp [jsSplit, hc]
    · cases hj : jsSplit sep rest with
      | nil => simp [jsSplit, hc, hj]
      | cons piece pieces => simp [jsSplit, hc, hj]

theorem jsSplit_of_not_mem (sep : Char) : ∀ l : List Char, sep ∉ l → jsSplit sep l = [l]
  | [], _ => rfl
  | c :: rest, h => by
    have hc : ¬ (c = sep) := fun e => h (by simp [e])
    have hrest : sep ∉ rest := fun m => h (List.mem_cons_of_mem _ m)
    have ih := jsSplit_of_not_mem sep rest hrest
    simp [jsSplit, hc, ih]

theorem jsSplit_append_cons (sep : Char) :
    ∀ p s : List Char, sep ∉ p → jsSplit sep (p ++ sep :: s) = p :: jsSplit sep s
  | [], s, _ => by simp [jsSplit]
  | c :: p, s, h => by
    have hc : ¬ (c = sep) := fun e => h (by simp [e])
    have hp : sep ∉ p := fun m => h (List.mem_cons_of_mem _ m)
    have ih := jsSplit_append_cons sep p s hp
    simp [jsSplit, hc, ih]

theorem token_data_split (p sig : String) (hp : '.' ∉ p.data) (hs : '.' ∉ sig.data) :
    jsSplit '.' (p ++ "." ++ sig).data = [p.data, sig.data] := by
  have hdata : (p ++ "." ++ sig).data = p.data ++ '.' :: sig.data := by
    simp [String.data_append]
  rw [hdata, jsSplit_append_cons '.' p.data sig.data hp, jsSplit_of_not_mem '.' sig.data hs]

theorem b64Char_ne_dot (n : Nat) : b64Char n ≠ '.' := by
  have htable : ∀ c ∈ b64Table, c ≠ '.' := by decide
  unfold b64Char
  rw [List.getD_eq_getElem?_getD]
  cases hg : b64Table[n]? with
  | none => simp
  | some c =>
    simp only [hg, Option.getD_some]
    exact htable c (List.getElem?_mem hg)

theorem mem_base64urlEncode (c : Char) :
    ∀ bs : List Nat, c ∈ base64urlEncode bs → ∃ n, c = b64Char n
  | [] => by simp [base64urlEncode]
  | [b1] => by
    intro h
    simp only [base64urlEncode, List.mem_cons, List.not_mem_nil, or_false] at h
    rcases h with h | h
    · exact ⟨_, h⟩
    · exact ⟨_, h⟩
  | [b1, b2] => by
    intro h
    simp only [base64urlEncode, List.mem_cons, List.not_mem_nil, or_false] at h
    rcases h with h | h | h
    · exact ⟨_, h⟩
    · exact ⟨_, h⟩
    · exact ⟨_, h⟩
  | b1 :: b2 :: b3 :: rest => by
    intro h
    simp only [base64urlEncode, List.mem_cons] at h
    rcases h with h | h | h | h | h
    · exact ⟨_, h⟩
    · exact ⟨_, h⟩
    · exact ⟨_, h⟩
    · exact ⟨_, h⟩
    · exact mem_base64urlEncode c rest h

theorem base64urlEncode_no_dot (bs : List Nat) : '.' ∉ base64urlEncode bs := by
  intro h
  obtain ⟨n, e⟩ := mem_base64urlEncode '.' bs h
  exact b64Char_ne_dot n e.symm

theorem base64urlEncode_ne_nil : ∀ bs : List Nat, bs ≠ [] → base64urlEncode bs ≠ []
  | [], h => absurd rfl h
  | [b1], _ => by simp [base64urlEncode]
  | [b1, b2], _ => by simp [base64urlEncode]
  | b1 :: b2 :: b3 :: rest, _ => by simp [base64urlEncode]

theorem stringifyPayload_data_ne_nil (e : Int) : (stringifyPayload e).data ≠ [] := by
  unfold stringifyPayload
  simp [String.data_append]

theorem sessionPayloadPart_ne_empty (e : Int) : sessionPayloadPart e ≠ "" := by
  rw [ne_eq, string_eq_empty_iff]
  unfold sessionPayloadPart
  apply base64urlEncode_ne_nil
  unfold strBytes
  simp [stringifyPayload_data_ne_nil e]

theorem sessionPayloadPart_no_dot (e : Int) : '.' ∉ (sessionPayloadPart e).data :=
  base64urlEncode_no_dot _

theorem getField_payloadVal_typ (e : Int) :
    getField (payloadVal e) "typ" = some (JsVal.jstr "admin") := rfl

theorem getField_payloadVal_exp (e : Int) :
    getField (payloadVal e) "exp" = some (JsVal.jnum e) := rfl

theorem verifySessionTokenE_accepts (hmac : String → String → String)
    (b64decode : String → String) (jsonParse : String → Option JsVal)
    (secret : String) (now : Int) (p sig : String)
    (hp_ne : p ≠ "") (hp_nodot : '.' ∉ p.data)
    (hsig_ne : sig ≠ "") (hsig_nodot : '.' ∉ sig.data)
    (hsig : sig = hmac secret p) (e : Int)
    (hparse : jsonParse (b64decode p) = some (payloadVal e))
    (hnow : ¬ now > e) :
    verifySessionTokenE hmac b64decode jsonParse secret now (p ++ "." ++ sig) = Except.ok true := by
  have hdata : (p ++ "." ++ sig).data = p.data ++ '.' :: sig.data := by
    simp [String.data_append]
  have htok_ne : (p ++ "." ++ sig) ≠ "" := by
    rw [ne_eq, string_eq_empty_iff, hdata]
    simp
  have hdot : '.' ∈ (p ++ "." ++ sig).data := by
    rw [hdata]
    simp
  have hsplit : jsSplit '.' (p ++ "." ++ sig).data = [p.data, sig.data] :=
    token_data_split p sig hp_nodot hsig_nodot
  unfold verifySessionTokenE
  rw [if_neg htok_ne, if_neg (not_not_intro hdot)]
  simp only [hsplit, List.getD_cons_zero, List.getD_cons_succ, string_mk_data]
  rw [if_neg hp_ne, if_neg hsig_ne]
  simp only [signTokenPart, ← hsig, ne_eq, not_true_eq_false, if_false, ite_false,
    not_false_eq_true, if_true, ite_true]
  have htse : timingSafeEqual (strBytes sig) (strBytes sig) = Except.ok true := by
    simp [timingSafeEqual]
  simp only [htse, hparse]
  simp [payloadVal, getField, List.lookup, jsTruthy, jsStrictEqStr, hnow]

/-- C2: round trip.  For any non-empty signing secret and any issuance
time, a token produced by createSessionToken is accepted by
verifySessionToken at any time strictly before the embedded expiry
(issuance time plus the fixed 8-hour TTL).  The hypotheses record the
library facts relied on: the HMAC signature is a non-empty base64url
string without dots, base64url decoding inverts the encoding of the
payload, and JSON.parse recovers the serialized payload object. -/
theorem createSessionToken_roundtrip
    (hmac : String → String → String) (b64decode : String → String)
    (jsonParse : String → Option JsVal) (secret : String) (issued now : Int)
    (hsecret : secret ≠ "")
    (hsig_ne : hmac secret (sessionPayloadPart (issued + SESSION_TTL_MS)) ≠ "")
    (hsig_nodot : '.' ∉ (hmac secret (sessionPayloadPart (issued + SESSION_TTL_MS))).data)
    (hdec : b64decode (sessionPayloadPart (issued + SESSION_TTL_MS)) =
      stringifyPayload (issued + SESSION_TTL_MS))
    (hparse : jsonParse (stringifyPayload (issued + SESSION_TTL_MS)) =
      some (payloadVal (issued + SESSION_TTL_MS)))
    (hnow : now < issued + SESSION_TTL_MS) :
    verifySessionToken hmac b64decode jsonParse secret now
      (createSessionToken hmac secret issued) = true := by
  unfold verifySessionToken createSessionToken
  rw [verifySessionTokenE_accepts hmac b64decode jsonParse secret now
    (sessionPayloadPart (issued + SESSION_TTL_MS))
    (signTokenPart hmac secret (sessionPayloadPart (issued + SESSION_TTL_MS)))
    (sessionPayloadPart_ne_empty _) (sessionPayloadPart_no_dot _)
    hsig_ne hsig_nodot rfl (issued + SESSION_TTL_MS)
    (by rw [hdec, hparse]) (not_lt.mpr hnow.le)]

/-- C7: verifySessionToken is total on its input: for every token
string (empty, separator-free, or garbage in either segment) the
computation finishes with a boolean and no unhandled exception escapes
(the only throwing primitive, crypto.timingSafeEqual, is guarded by the
explicit length check; the JSON.parse region is wrapped in try). -/
theorem verifySessionTokenE_total (hmac : String → String → String)
    (b64decode : String → String) (jsonParse : String → Option JsVal)
    (secret : String) (now : Int) (token : String) :
    ∃ b, verifySessionTokenE hmac b64decode jsonParse secret now token = Except.ok b := by
  simp only [verifySessionTokenE]
  repeat' split
  any_goals exact ⟨_, rfl⟩
  rename_i hlen x e heq
  exfalso
  unfold timingSafeEqual at heq
  rw [if_neg hlen] at heq
  cases heq

/-- C1: verifySessionToken accepts only if the provided signature
segment (the second dot-separated segment) equals the freshly
recomputed HMAC of the payload segment under the process signing
secret, and the current time has not passed the expiry embedded in the
parsed payload; consequently a token whose payload was substituted or
re-signed under a different key, so that its signature differs from the
recomputed one, is never accepted. -/
theorem verifySessionToken_accept_only_if (hmac : String → String → String)
    (b64decode : String → String) (jsonParse : String → Option JsVal)
    (secret : String) (now : Int) (token : String)
    (h : verifySessionToken hmac b64decode jsonParse secret now token = true) :
    String.mk ((jsSplit '.' token.data).getD 1 []) =
      hmac secret (String.mk ((jsSplit '.' token.data).getD 0 [])) ∧
    ∃ payload e,
      jsonParse (b64decode (String.mk ((jsSplit '.' token.data).getD 0 []))) = some payload ∧
      getField payload "exp" = some (JsVal.jnum e) ∧ ¬ now > e := by
  have hE : verifySessionTokenE hmac b64decode jsonParse secret now token = Except.ok true := by
    unfold verifySessionToken at h
    cases hE : verifySessionTokenE hmac b64decode jsonParse secret now token with
    | ok b => rw [hE] at h; rw [← h]
    | error e => rw [hE] at h; exact absurd h (by simp)
  simp only [verifySessionTokenE] at hE
  split at hE
  · exact absurd hE (by simp)
  split at hE
  · exact absurd hE (by simp)
  split at hE
  · exact absurd hE (by simp)
  split at hE
  · exact absurd hE (by simp)
  split at hE
  · exact absurd hE (by simp)
  rename_i hlen
  split at hE
  · exact absurd hE (by simp)
  rename_i x eq heq
  split at hE
  · exact absurd hE (by simp)
  rename_i hneq
  have heqtrue : eq = true := not_not.mp hneq
  subst heqtrue
  unfold timingSafeEqual at heq
  rw [if_neg hlen] at heq
  have hsig_eq :
      String.mk ((jsSplit '.' token.data).getD 1 []) =
        hmac secret (String.mk ((jsSplit '.' token.data).getD 0 [])) :=
    strBytes_injective (of_decide_eq_true (Except.ok.inj heq))
  refine ⟨hsig_eq, ?_⟩
  split at hE
  · exact absurd hE (by simp)
  rename_i payload hj
  split at hE
  · exact absurd hE (by simp)
  split at hE
  · exact absurd hE (by simp)
  split at hE
  · rename_i e hx
    exact ⟨payload, e, hj, hx, of_decide_eq_true (Except.ok.inj hE)⟩
  · exact absurd hE (by simp)

/-- Witness for the claim C1 theorem at a concrete accepted token. -/
theorem verifySessionToken_accept_only_if_witness :
    String.mk ((jsSplit '.' (createSessionToken cHmac "key" 0).data).getD 1 []) =
      cHmac "key" (String.mk ((jsSplit '.' (createSessionToken cHmac "key" 0).data).getD 0 [])) ∧
    ∃ payload e,
      cJsonParse (base64urlDecodeStr
        (String.mk ((jsSplit '.' (createSessionToken cHmac "key" 0).data).getD 0 []))) =
        some payload ∧
      getField payload "exp" = some (JsVal.jnum e) ∧ ¬ (5 : Int) > e :=
  verifySessionToken_accept_only_if cHmac base64urlDecodeStr cJsonParse "key" 5
    (createSessionToken cHmac "key" 0) (by decide)

/-- Witness for the claim C2 round trip at concrete values. -/
theorem createSessionToken_roundtrip_witness :
    ("key" : String) ≠ "" ∧
    verifySessionToken cHmac base64urlDecodeStr cJsonParse "key" 5
      (createSessionToken cHmac "key" 0) = true :=
  ⟨by decide,
   createSessionToken_roundtrip cHmac base64urlDecodeStr cJsonParse "key" 0 5
     (by decide) (by decide) (by decide) (by rfl) (by rfl) (by decide)⟩

/-- Counterexample to claim C3 as stated: this token contains two
separator characters, yet verifySessionToken accepts it, because the
verification uses only the first two dot-separated segments and ignores
the trailing one. -/
theorem verifySessionToken_extra_separator_accepted :
    1 < ((createSessionToken cHmac "key" 0 ++ ".x").data.count '.') ∧
    verifySessionToken cHmac base64urlDecodeStr cJsonParse "key" 5
      (createSessionToken cHmac "key" 0 ++ ".x") = true :=
  ⟨by decide, by decide⟩

/-- Claim C3 (amended): verifySessionToken rejects the empty token, any
token with no separator at all, and any token whose first or second
dot-separated segment is empty; a token with more than one separator is
not rejected for that reason alone (verification proceeds on the first
two segments). -/
theorem verifySessionToken_rejects_malformed (hmac : String → String → String)
    (b64decode : String → String) (jsonParse : String → Option JsVal)
    (secret : String) (now : Int) (token : String) :
    (token = "" → verifySessionToken hmac b64decode jsonParse secret now token = false) ∧
    ('.' ∉ token.data → verifySessionToken hmac b64decode jsonParse secret now token = false) ∧
    ((jsSplit '.' token.data).getD 0 [] = [] →
      verifySessionToken hmac b64decode jsonParse secret now token = false) ∧
    ((jsSplit '.' token.data).getD 1 [] = [] →
      verifySessionToken hmac b64decode jsonParse secret now token = false) := by
  refine ⟨?_, ?_, ?_, ?_⟩
  · intro h
    simp [verifySessionToken, verifySessionTokenE, h]
  · intro h
    by_cases h0 : token = ""
    · simp [verifySessionToken, verifySessionTokenE, h0]
    · simp [verifySessionToken, verifySessionTokenE, h0, h]
  · intro h
    rw [List.getD_eq_getElem?_getD] at h
    by_cases h0 : token = ""
    · simp [verifySessionToken, verifySessionTokenE, h0]
    by_cases h1 : '.' ∉ token.data
    · simp [verifySessionToken, verifySessionTokenE, h0, h1]
    · simp [verifySessionToken, verifySessionTokenE, h0, h1, h]
  · intro h
    rw [List.getD_eq_getElem?_getD] at h
    by_cases h0 : token = ""
    · simp [verifySessionToken, verifySessionTokenE, h0]
    by_cases h1 : '.' ∉ token.data
    · simp [verifySessionToken, verifySessionTokenE, h0, h1]
    by_cases h2 : (jsSplit '.' token.data)[0]?.getD [] = ([] : List Char)
    · simp [verifySessionToken, verifySessionTokenE, h0, h1, h2]
    · simp [verifySessionToken, verifySessionTokenE, h0, h1, h2, h]

/-- Witness for the claim C3 amended theorem at concrete malformed
tokens: empty, separator-free, empty payload segment, empty signature
segment. -/
theorem verifySessionToken_rejects_malformed_witness :
    verifySessionToken cHmac base64urlDecodeStr cJsonParse "key" 0 "" = false ∧
    verifySessionToken cHmac base64urlDecodeStr cJsonParse "key" 0 "nodot" = false ∧
    verifySessionToken cHmac base64urlDecodeStr cJsonParse "key" 0 ".sig" = false ∧
    verifySessionToken cHmac base64urlDecodeStr cJsonParse "key" 0 "payload." = false :=
  ⟨(verifySessionToken_rejects_malformed cHmac base64urlDecodeStr cJsonParse "key" 0 "").1 rfl,
   (verifySessionToken_rejects_malformed cHmac base64urlDecodeStr cJsonParse "key" 0 "nodot").2.1
     (by decide),
   (verifySessionToken_rejects_malformed cHmac base64urlDecodeStr cJsonParse "key" 0 ".sig").2.2.1
     (by decide),
   (verifySessionToken_rejects_malformed cHmac base64urlDecodeStr cJsonParse "key" 0
     "payload.").2.2.2 (by decide)⟩

/-- Claim C4: with no scrypt descriptor in effect and a raw static
password configured, verifyPassword accepts exactly the configured
password (byte-for-byte, hence any candidate differing only in the last
character or only in length is rejected), and any supplied value whose
byte length differs is rejected by the length check, whose result does
not depend on the content comparison. -/
theorem verifyPassword_static_iff (scryptSync : String → List Nat → Nat → List Nat)
    (b64stdDecode : String → List Nat) (adminPasswordHash adminPassword supplied : String)
    (hnohash : strStartsWith adminPasswordHash "scrypt$" = false)
    (hpw : adminPassword ≠ "") :
    (verifyPassword scryptSync b64stdDecode adminPasswordHash adminPassword supplied = true ↔
      supplied = adminPassword) ∧
    ((strBytes adminPassword).length ≠ (strBytes supplied).length →
      verifyPassword scryptSync b64stdDecode adminPasswordHash adminPassword supplied = false) := by
  by_cases h0 : supplied = ""
  · subst h0
    refine ⟨⟨fun h => absurd h (by simp [verifyPassword, verifyPasswordE]), fun h => absurd h.symm hpw⟩, ?_⟩
    intro _
    simp [verifyPassword, verifyPasswordE]
  · have hstep : verifyPasswordE scryptSync b64stdDecode adminPasswordHash adminPassword supplied =
        (if (strBytes adminPassword).length ≠ (strBytes supplied).length then Except.ok false
         else Except.ok (decide (strBytes adminPassword = strBytes supplied))) := by
      unfold verifyPasswordE
      rw [if_neg h0, if_neg (by simp [hnohash]), if_pos hpw]
      by_cases hl : (strBytes adminPassword).length ≠ (strBytes supplied).length
      · rw [if_pos hl, if_pos hl]
      · rw [if_neg hl, if_neg hl]
        unfold timingSafeEqual
        rw [if_neg hl]
    constructor
    · unfold verifyPassword
      rw [hstep]
      by_cases hl : (strBytes adminPassword).length ≠ (strBytes supplied).length
      · rw [if_pos hl]
        constructor
        · intro hf
          exact absurd hf (by simp)
        · intro he
          exfalso
          apply hl
          rw [he]
      · rw [if_neg hl]
        constructor
        · intro hd
          exact (strBytes_injective (of_decide_eq_true hd)).symm
        · intro he
          rw [he]
          simp
    · intro hl
      unfold verifyPassword
      rw [hstep, if_pos hl]

/-- Witness for the claim C4 theorem: the configured password is
accepted and a longer candidate is rejected by the length check. -/
theorem verifyPassword_static_iff_witness :
    strStartsWith "" "scrypt$" = false ∧ ("hunter2" : String) ≠ "" ∧
    verifyPassword (fun _ _ _ => []) (fun _ => []) "" "hunter2" "hunter2" = true ∧
    verifyPassword (fun _ _ _ => []) (fun _ => []) "" "hunter2" "hunter22" = false :=
  ⟨by decide, by decide,
   (verifyPassword_static_iff (fun _ _ _ => []) (fun _ => []) "" "hunter2" "hunter2"
     (by decide) (by decide)).1.mpr rfl,
   (verifyPassword_static_iff (fun _ _ _ => []) (fun _ => []) "" "hunter2" "hunter22"
     (by decide) (by decide)).2 (by decide)⟩

/-- Claim C5 (modelled from the spec, as the x-api-key gate is declared
in src/BACKEND_SETUP.md but not implemented in src/server.js): the
static API key gate fails closed when no key is configured, and
otherwise accepts exactly a non-empty provided key equal to the
configured key. -/
theorem apiKeyCheck_iff (configuredKey providedKey : String) :
    apiKeyCheck configuredKey providedKey = true ↔
      configuredKey ≠ "" ∧ providedKey ≠ "" ∧ providedKey = configuredKey := by
  unfold apiKeyCheck
  by_cases h1 : configuredKey = "" <;> by_cases h2 : providedKey = "" <;>
    simp [h1, h2]

/-- Counterexample to claim C8 as stated: a whitespace-only (blank but
non-empty) supplied secret is not rejected up front; it enters the
scrypt hash-derivation path, and under a stored scrypt descriptor
matching the whitespace password (the external primitives are
instantiated with concrete functions realizing one such configuration)
verifyPassword returns true instead of false. -/
theorem verifyPassword_blank_not_immediate :
    verifyPassword (fun _ _ _ => [7]) (fun _ => [7]) "scrypt$AA$BB" "" " " = true := by
  decide

/-- Claim C8 (amended): for the empty supplied secret, verifyPassword
returns false immediately, regardless of the configured hash or
password and regardless of the behaviour of the external primitives, so
neither the hash-derivation path nor the byte-comparison path can
influence the result; a whitespace-only non-empty secret, however,
proceeds to the configured comparison path. -/
theorem verifyPassword_empty_rejected (scryptSync : String → List Nat → Nat → List Nat)
    (b64stdDecode : String → List Nat) (adminPasswordHash adminPassword : String) :
    verifyPassword scryptSync b64stdDecode adminPasswordHash adminPassword "" = false := rfl

/-- Claim C9: startup configuration validation throws whenever the
signing secret is empty or both the password hash descriptor and the
raw password are empty, and when it returns normally every secret
required for the selected email-provider mode is present. -/
theorem validateServerConfig_requires_secrets (pathResolve : String → String)
    (existsSync : String → Bool) (cfg : ServerConfig) :
    ((cfg.sessionSecret = "" ∨ (cfg.adminPasswordHash = "" ∧ cfg.adminPassword = "")) →
      ∃ e, validateServerConfig pathResolve existsSync cfg = Except.error e) ∧
    (∀ p, validateServerConfig pathResolve existsSync cfg = Except.ok p →
      cfg.sessionSecret ≠ "" ∧ (cfg.adminPasswordHash ≠ "" ∨ cfg.adminPassword ≠ "") ∧
      (cfg.emailProvider = "smtp" → cfg.smtpHost ≠ "" ∧ cfg.smtpUser ≠ "" ∧ cfg.smtpPass ≠ "") ∧
      (cfg.emailProvider = "brevo" → cfg.brevoApiKey ≠ "")) := by
  constructor
  · intro h
    unfold validateServerConfig
    rcases h with h | h
    · rw [if_pos h]
      exact ⟨_, rfl⟩
    · by_cases h0 : cfg.sessionSecret = ""
      · rw [if_pos h0]
        exact ⟨_, rfl⟩
      · rw [if_neg h0, if_pos h]
        exact ⟨_, rfl⟩
  · intro p hp
    unfold validateServerConfig at hp
    by_cases h1 : cfg.sessionSecret = ""
    · rw [if_pos h1] at hp
      cases hp
    rw [if_neg h1] at hp
    by_cases h2 : cfg.adminPasswordHash = "" ∧ cfg.adminPassword = ""
    · rw [if_pos h2] at hp
      cases hp
    rw [if_neg h2] at hp
    by_cases h3 : cfg.emailProvider = "smtp" ∧
        (cfg.smtpHost = "" ∨ cfg.smtpUser = "" ∨ cfg.smtpPass = "")
    · rw [if_pos h3] at hp
      cases hp
    rw [if_neg h3] at hp
    by_cases h4 : cfg.emailProvider = "brevo" ∧ cfg.brevoApiKey = ""
    · rw [if_pos h4] at hp
      cases hp
    rw [if_neg h4] at hp
    refine ⟨h1, not_and_or.mp h2, ?_, ?_⟩
    · intro hs
      rcases not_and_or.mp h3 with hcase | hcase
      · exact absurd hs hcase
      · push_neg at hcase
        exact hcase
    · intro hb
      rcases not_and_or.mp h4 with hcase | hcase
      · exact absurd hb hcase
      · exact hcase

/-- Witness for the claim C9 theorem: a configuration with an empty
signing secret is rejected at startup. -/
theorem validateServerConfig_requires_secrets_witness :
    ∃ e, validateServerConfig (fun s => s) (fun _ => true)
      ⟨"h", "u", "p", "smtp", "", "/r", "", "hash", "pw"⟩ = Except.error e :=
  (validateServerConfig_requires_secrets (fun s => s) (fun _ => true)
    ⟨"h", "u", "p", "smtp", "", "/r", "", "hash", "pw"⟩).1 (Or.inl rfl)

/-- Claim C10 (code bug in the middleware): a Cookie header whose
admin_session value contains a malformed percent-encoding makes
decodeURIComponent throw inside parseCookies, so requireAdminAuth
neither sends a response nor invokes the next handler at that input:
the exception escapes the middleware. -/
theorem requireAdminAuth_throws_on_malformed_cookie :
    requireAdminAuthE cHmac base64urlDecodeStr cJsonParse "key" 0 "admin_session=%" =
      Except.error () := rfl

end PortfolioServer
